import Mathlib

/-!
# dvswitch: display-widget decode gate, mixer test driver, TCP repeater

A shallow embedding of

* `dv_display_widget::put_frame` and the widget constructor
  (`src/dv_display_widget.cpp`),
* the producer loop and `dummy_sink` of the mixer test driver
  (`tests/mixer.cpp`),
* `splithp`, `close_rc`, `open_rc`, `send_rc` and the argument and receive
  loops of `main` (`contrib/osc-utils/repeater_tcp.c`),

followed by the properties proved about them.

Conventions.  Calls into libdv, X11 and the operating system are recorded as
traces of call events; what such a call returns is an input of the model.
C strings are character lists ended by a NUL character, pointers that may be
null are `Option`s.
-/

namespace dvswitch

/-! ## Display widget (`src/dv_display_widget.cpp`) -/

/-- A mixer frame: the serial number set by the mixer and the raw DV buffer.
The declaration (`frame.h`) is not among the sources; serial numbers are
integers here, so that the constructor's `-1` is itself a value. -/
structure frame where
  serial_num : Int
  buffer : List Nat
  deriving DecidableEq, Repr

/-- The fields of libdv's `dv_decoder_t` that the widget reads. -/
structure dv_decoder where
  quality : Int
  width : Nat
  height : Nat
  deriving DecidableEq, Repr

/-- The `pixels_pitch` pair returned by `get_frame_buffer`: the address of the
pixel buffer (`0` is the null pointer) and its pitch. -/
structure pixels_pitch where
  first : Nat
  second : Int
  deriving DecidableEq, Repr

/-- State of the base class `dv_display_widget`. -/
structure dv_display_widget where
  decoder_ : dv_decoder
  decoded_serial_num_ : Int
  deriving DecidableEq, Repr

/-- Calls that `put_frame` makes into libdv and into the virtual `draw_frame`.
The libdv calls are tagged with the frame whose buffer they are given. -/
inductive dv_call where
  | dv_parse_header (f : frame)
  | dv_decode_full_frame (f : frame) (pixels : Nat) (pitch : Int)
  | draw_frame (width height : Nat)
  deriving DecidableEq, Repr

/-- Constructor `dv_display_widget::dv_display_widget(int quality)`:
`decoder_(dv_decoder_new(0, true, true))`, `decoded_serial_num_(-1)`,
`dv_set_quality(decoder_, quality)`. -/
def dv_display_widget.new (quality : Int) : dv_display_widget :=
  { decoder_ := { quality := quality, width := 0, height := 0 },
    decoded_serial_num_ := -1 }

/-- `dv_full_display_widget::get_frame_buffer` and
`dv_thumb_display_widget::get_frame_buffer`: the data pointer and pitch of the
shared-memory image when there is one, `pixels_pitch(0, 0)` otherwise. -/
def get_frame_buffer (image : Option pixels_pitch) : pixels_pitch :=
  match image with
  | some img => img
  | none => { first := 0, second := 0 }

/-- `dv_display_widget::put_frame`.  `parse` is the effect of the two libdv
calls on the decoder fields (`dv_parse_header` sets the frame size that
`draw_frame` is given), `buffer` is what the virtual `get_frame_buffer()`
returns at this delivery.  The result is the new widget state and the calls
made, in order. -/
def put_frame (parse : dv_decoder → List Nat → dv_decoder)
    (w : dv_display_widget) (buffer : pixels_pitch) (dv_frame : frame) :
    dv_display_widget × List dv_call :=
  if dv_frame.serial_num ≠ w.decoded_serial_num_ then
    if buffer.first = 0 then
      (w, [])
    else
      let decoder1 := parse w.decoder_ dv_frame.buffer
      ({ decoder_ := decoder1, decoded_serial_num_ := dv_frame.serial_num },
       [dv_call.dv_parse_header dv_frame,
        dv_call.dv_decode_full_frame dv_frame buffer.first buffer.second,
        dv_call.draw_frame decoder1.width decoder1.height])
  else
    (w, [])

/-- A sequence of deliveries to one widget: each frame comes with the buffer
that `get_frame_buffer()` returns at that moment.  State and calls are
threaded through `put_frame` from left to right. -/
def put_frames (parse : dv_decoder → List Nat → dv_decoder) :
    dv_display_widget → List (frame × pixels_pitch) → dv_display_widget × List dv_call
  | w, [] => (w, [])
  | w, d :: ds =>
    let r := put_frame parse w d.2 d.1
    let rest := put_frames parse r.1 ds
    (rest.1, r.2 ++ rest.2)

/-- Is this call a `dv_parse_header` on a frame with serial number `s`? -/
def is_parse_of (s : Int) : dv_call → Bool
  | dv_call.dv_parse_header f => f.serial_num == s
  | _ => false

/-- Is this call a `dv_decode_full_frame` on a frame with serial number `s`? -/
def is_decode_of (s : Int) : dv_call → Bool
  | dv_call.dv_decode_full_frame f _ _ => f.serial_num == s
  | _ => false

/-- One frame handed to each of several widgets (the sinks of the mixer), each
with its own frame buffer; the calls of all widgets, concatenated. -/
def fan_out (parse : dv_decoder → List Nat → dv_decoder) (dv_frame : frame) :
    List (dv_display_widget × pixels_pitch) → List dv_call
  | [] => []
  | wb :: rest => (put_frame parse wb.1 wb.2 dv_frame).2 ++ fan_out parse dv_frame rest

/-- The projection of a delivery onto the serial number of its frame. -/
def delivery_serial (d : frame × pixels_pitch) : Int := d.1.serial_num

/-- The three calls of one decode step. -/
def decode_step_calls (parse : dv_decoder → List Nat → dv_decoder)
    (w : dv_display_widget) (buffer : pixels_pitch) (f : frame) : List dv_call :=
  [dv_call.dv_parse_header f,
   dv_call.dv_decode_full_frame f buffer.first buffer.second,
   dv_call.draw_frame (parse w.decoder_ f.buffer).width (parse w.decoder_ f.buffer).height]

/-- Sample deliveries to one widget: serial numbers 5, 5, 7, each with a
buffer at address 1. -/
def sample_deliveries : List (frame × pixels_pitch) :=
  [({ serial_num := 5, buffer := [] }, { first := 1, second := 1440 }),
   ({ serial_num := 5, buffer := [] }, { first := 1, second := 1440 }),
   ({ serial_num := 7, buffer := [] }, { first := 1, second := 1440 })]

/-- Sample sinks: a full-quality and a fastest-quality widget, both new, each
with a buffer of its own. -/
def sample_widgets : List (dv_display_widget × pixels_pitch) :=
  [(dv_display_widget.new 5, { first := 1, second := 1440 }),
   (dv_display_widget.new 1, { first := 2, second := 2880 })]

/-- A header parse that sets the PAL frame size. -/
def sample_parse (d : dv_decoder) (_ : List Nat) : dv_decoder :=
  { d with width := 720, height := 576 }

/-! ## Mixer test driver (`tests/mixer.cpp`) -/

/-- Number of values of the C++ type `unsigned` (32 bits wide). -/
def UINT_RANGE : Nat := 4294967296

/-- The two counters of `main`: `unsigned source_count` and
`volatile unsigned sink_count`. -/
structure driver_state where
  source_count : Nat
  sink_count : Nat
  deriving DecidableEq, Repr

/-- Both counters start at zero: `sink_count = 0`, `source_count = 0`. -/
def driver_init : driver_state := { source_count := 0, sink_count := 0 }

/-- The unsigned expression `source_count - sink_count`. -/
def in_flight (s : driver_state) : Nat :=
  (s.source_count + UINT_RANGE - s.sink_count % UINT_RANGE) % UINT_RANGE

/-- One pass of the `for (;;)` loop of `main`: when
`source_count - sink_count < 8` a frame is allocated and put, and
`++source_count` follows; otherwise nothing changes. -/
def producer_step (s : driver_state) : driver_state :=
  if in_flight s < 8 then
    { s with source_count := (s.source_count + 1) % UINT_RANGE }
  else s

/-- Modelled from the spec: the mixer (`mixer.hpp`, `mixer.cpp`), which is
absent from the sources, decides when `dummy_sink::put_frame` runs.  A frame
is sunk only after it was sourced, which is read on the counters as
`sink_count < source_count`; the body `++sink_count_` is from
`dummy_sink::put_frame`. -/
def sink_step (s : driver_state) : driver_state :=
  if s.sink_count < s.source_count then
    { s with sink_count := (s.sink_count + 1) % UINT_RANGE }
  else s

/-- Which thread moves next: the producer loop or the mixer delivering to the
sink. -/
inductive driver_step where
  | produce
  | sink
  deriving DecidableEq, Repr

/-- One step of the chosen kind. -/
def driver_next (s : driver_state) : driver_step → driver_state
  | driver_step.produce => producer_step s
  | driver_step.sink => sink_step s

/-- The state after a schedule of steps, starting from `s`. -/
def driver_run (s : driver_state) (schedule : List driver_step) : driver_state :=
  schedule.foldl driver_next s

/-- A state is reachable when some schedule leads to it from the initial
state. -/
def driver_reachable (s : driver_state) : Prop :=
  ∃ schedule : List driver_step, driver_run driver_init schedule = s

/-- A short schedule of the test driver: two frames sourced, one sunk. -/
def sample_schedule : List driver_step :=
  [driver_step.produce, driver_step.produce, driver_step.sink]

/-! ## TCP repeater (`contrib/osc-utils/repeater_tcp.c`) -/

/-- The terminating character of a C string. -/
def NUL : Char := Char.ofNat 0

/-- C `strchr(s, c)` on a character buffer: offset of the first `c` at or
before the terminator, `none` for a null result. -/
def strchr : List Char → Char → Option Nat
  | [], _ => none
  | x :: xs, c =>
    if x = c then some 0
    else if x = NUL then none
    else (strchr xs c).map (· + 1)

/-- The C string that starts at offset `off` of a buffer: the characters up to
the first NUL. -/
def c_str (buf : List Char) (off : Nat) : List Char :=
  (buf.drop off).takeWhile (· ≠ NUL)

/-- C `strdup`: a fresh copy of the string (allocation does not fail here). -/
def strdup (s : List Char) : List Char := s

/-- C `isspace` in the "C" locale. -/
def isspace (c : Char) : Bool :=
  c = ' ' || (9 ≤ c.toNat && c.toNat ≤ 13)

/-- Value of a leading run of decimal digits, continuing from `acc`. -/
def atoi_digits : List Char → Int → Int
  | [], acc => acc
  | c :: cs, acc =>
    if c.isDigit then atoi_digits cs (acc * 10 + ((c.toNat - 48 : Nat) : Int))
    else acc

/-- C `atoi`: skip white space, read an optional sign and the decimal digits
that follow.  Values outside the range of `int` (undefined in C) are not
reduced. -/
def atoi (s : List Char) : Int :=
  match s.dropWhile isspace with
  | '-' :: rest => - atoi_digits rest 0
  | '+' :: rest => atoi_digits rest 0
  | rest => atoi_digits rest 0

/-- The string literal `"localhost"`. -/
def localhost : List Char := ['l', 'o', 'c', 'a', 'l', 'h', 'o', 's', 't']

/-- What `splithp` leaves behind: its return value, the argument buffer, and
the cells behind the `host` and `port` pointers (`none` for a null pointer; the
`host` cell itself holds a `char *` that may be null). -/
structure splithp_result where
  ret : Int
  arg : List Char
  host : Option (Option (List Char))
  port : Option Int
  deriving DecidableEq, Repr

/-- `int splithp (char *arg, char **host, int *port)`. -/
def splithp (arg : List Char) (host : Option (Option (List Char)))
    (port : Option Int) : splithp_result :=
  match strchr arg ':' with
  | none => { ret := 1, arg := arg, host := host, port := port }
  | some tmp =>
    let arg1 := arg.set tmp NUL
    let port1 := match port with
      | some _ => some (atoi (c_str arg1 (tmp + 1)))
      | none => none
    let host1 := match host with
      | some _ =>
        if tmp = 0 then some (some (strdup localhost))
        else some (some (strdup (c_str arg1 0)))
      | none => none
    let arg2 := arg1.set tmp ':'
    { ret := 0, arg := arg2, host := host1, port := port1 }

/-- The fields of `struct sockaddr_in`; `sin_port` holds the port number that
the stored network-order value denotes. -/
structure sockaddr_in where
  sin_family : Nat
  sin_addr : Nat
  sin_port : Nat
  deriving DecidableEq, Repr

/-- The record `remoteconnection`; a null `hostname` is `none`. -/
structure remoteconnection where
  sock : Int
  addr : sockaddr_in
  hostname : Option (List Char)
  port : Int
  deriving DecidableEq, Repr

/-- An element of the array returned by `calloc`: all bytes zero. -/
def calloc_rc : remoteconnection :=
  { sock := 0, addr := { sin_family := 0, sin_addr := 0, sin_port := 0 },
    hostname := none, port := 0 }

/-- The constant `AF_INET`. -/
def AF_INET : Nat := 2

/-- The port number denoted by `htons(port)`: the low 16 bits. -/
def htons (port : Int) : Nat := (port % 65536).toNat

/-- System and library calls made by the repeater, with their arguments and,
where the program looks at it, the returned value. -/
inductive sys_call where
  | close (fd : Int)
  | socket (ret : Int)
  | gethostbyname (host : Option (List Char)) (ret : Option Nat)
  | connect (fd : Int) (addr : sockaddr_in) (ret : Int)
  | sendto (fd : Int) (data : List Nat) (addr : sockaddr_in) (ret : Int)
  | read (fd : Int) (ret : Int)
  | write (fd : Int) (data : List Nat)
  | fsync (fd : Int)
  | fprintf_stderr (text : String) (host : Option (List Char)) (port : Int)
  | error (text : String)
  deriving DecidableEq, Repr

/-- Result of a function working on one `remoteconnection`: the record, whether
`error()` ended the process (`exit(0)`), and the calls made. -/
structure rc_result where
  rc : remoteconnection
  exited : Bool
  trace : List sys_call
  deriving DecidableEq, Repr

/-- `void close_rc(remoteconnection *rc)`. -/
def close_rc (rc : remoteconnection) : rc_result :=
  { rc := { rc with sock := -1 }, exited := false, trace := [sys_call.close rc.sock] }

/-- What the system answers during one `open_rc`: the results of `socket`,
`gethostbyname` (the resolved address, `none` for a null result) and
`connect`. -/
structure open_env where
  socket_ret : Int
  hp : Option Nat
  connect_ret : Int
  deriving DecidableEq, Repr

/-- `void open_rc(remoteconnection *rc, char *host, int port)`. -/
def open_rc (e : open_env) (rc : remoteconnection) (host : Option (List Char))
    (port : Int) : rc_result :=
  let rc1 := { rc with sock := e.socket_ret }
  if rc1.sock < 0 then
    { rc := rc1, exited := true,
      trace := [sys_call.socket e.socket_ret, sys_call.error "Creating socket failed."] }
  else
    let rc2 := { rc1 with addr := { rc1.addr with sin_family := AF_INET } }
    match e.hp with
    | none =>
      { rc := rc2, exited := true,
        trace := [sys_call.socket e.socket_ret, sys_call.gethostbyname host none,
                  sys_call.error "Unknown host"] }
    | some a =>
      let rc3 := { rc2 with addr := { rc2.addr with sin_addr := a, sin_port := htons port } }
      if e.connect_ret ≠ 0 then
        let c := close_rc rc3
        { rc := c.rc, exited := false,
          trace := [sys_call.socket e.socket_ret, sys_call.gethostbyname host (some a),
                    sys_call.connect rc3.sock rc3.addr e.connect_ret,
                    sys_call.fprintf_stderr "Can not connect" host port] ++ c.trace }
      else
        { rc := rc3, exited := false,
          trace := [sys_call.socket e.socket_ret, sys_call.gethostbyname host (some a),
                    sys_call.connect rc3.sock rc3.addr e.connect_ret] }

/-- What the system answers during one `send_rc`: the answers for the
`open_rc` it may make, and the result of `sendto`. -/
structure send_env where
  opening : open_env
  sendto_ret : Int
  deriving DecidableEq, Repr

/-- `void send_rc (remoteconnection *rc, char *buffer, size_t len)`. -/
def send_rc (e : send_env) (rc : remoteconnection) (buffer : List Nat) (len : Nat) :
    rc_result :=
  let r1 : rc_result :=
    if rc.sock < 0 then open_rc e.opening rc rc.hostname rc.port
    else { rc := rc, exited := false, trace := [] }
  if r1.exited then r1
  else if r1.rc.sock < 0 then r1
  else
    let n := e.sendto_ret
    let sent := sys_call.sendto r1.rc.sock (buffer.take len) r1.rc.addr n
    if n < 0 then
      { rc := { r1.rc with sock := -1 }, exited := false,
        trace := r1.trace ++ [sent, sys_call.close r1.rc.sock,
                              sys_call.fprintf_stderr "Sendto failed" r1.rc.hostname r1.rc.port] }
    else
      { rc := r1.rc, exited := false, trace := r1.trace ++ [sent] }

/-- How `main` ends before it reaches its loops: after `printversion`
(`return 0`) or inside `usage(name, exitval)`. -/
inductive main_exit where
  | version
  | usage (exitval : Int)
  deriving DecidableEq, Repr

/-- The variables of `main` that are set by the end of the argument loop. -/
structure main_state where
  lport : Int
  want_dump : Int
  rc : List remoteconnection
  deriving DecidableEq, Repr

/-- Body of `for (i=2; i < argc; i++)` at lines 212-222: `hostname` and `port`
start as `NULL` and `0`; the record `rc[i-2]` is written only when `splithp`
returns 0. -/
def arg_loop_body (argv : List (List Char)) (rc : List remoteconnection) (i : Nat) :
    List remoteconnection :=
  let hostname : Option (List Char) := none
  let port : Int := 0
  let r := splithp (argv.getD i [] ++ [NUL]) (some hostname) (some port)
  if r.ret = 0 then
    rc.set (i - 2)
      { rc.getD (i - 2) calloc_rc with
        sock := -1, port := r.port.getD port, hostname := r.host.getD hostname }
  else rc

/-- The part of `main` from its start to the end of the argument loop
(lines 192-222).  `argv` lists the arguments, program name first, without
their terminators; `argc` is its length. -/
def main_args (argv : List (List Char)) : Except main_exit main_state :=
  let argc := argv.length
  if argc = 2 ∧ (argv.getD 1 [] = "-V".toList ∨ argv.getD 1 [] = "--version".toList) then
    Except.error main_exit.version
  else if argc = 2 ∧ (argv.getD 1 [] = "-h".toList ∨ argv.getD 1 [] = "--help".toList) then
    Except.error (main_exit.usage 0)
  else if argc < 2 then
    Except.error (main_exit.usage 1)
  else
    let lport := atoi (argv.getD 1 [])
    let rc0 := List.replicate (argc - 2) calloc_rc
    let want_dump : Int := if argc = 2 then 1 else 0
    let rc := (List.range' 2 (argc - 2)).foldl (arg_loop_body argv) rc0
    Except.ok { lport := lport, want_dump := want_dump, rc := rc }

/-- Result of a loop over all destination records. -/
structure rcs_result where
  rc : List remoteconnection
  exited : Bool
  trace : List sys_call
  deriving DecidableEq, Repr

/-- The loop `for (i=2; i < argc; i++) send_rc(&(rc[i-2]), buf, n);` over the
`argc-2` records, from record number `k` on; it stops when `error()` ends the
process. -/
def send_all (sends : Nat → send_env) (buf : List Nat) (n : Nat) :
    Nat → List remoteconnection → rcs_result
  | _, [] => { rc := [], exited := false, trace := [] }
  | k, rc :: rest =>
    let r := send_rc (sends k) rc buf n
    if r.exited then { rc := r.rc :: rest, exited := true, trace := r.trace }
    else
      let t := send_all sends buf n (k + 1) rest
      { rc := r.rc :: t.rc, exited := t.exited, trace := r.trace ++ t.trace }

/-- The loop `for (i=2; i < argc; i++) close_rc(&(rc[i-2]));` over the `argc-2`
records. -/
def close_all : List remoteconnection → rcs_result
  | [] => { rc := [], exited := false, trace := [] }
  | rc :: rest =>
    let c := close_rc rc
    let t := close_all rest
    { rc := c.rc :: t.rc, exited := false, trace := c.trace ++ t.trace }

/-- What the system answers during one pass of the `do ... while` loop at
lines 281-306: the result of `select` and whether `errno` is `EINTR`, whether
the client descriptor is set, the value of `run` read inside the body, the
result of `read` with the buffer it leaves, the answers for each destination,
and the value of `run` read by the loop condition. -/
structure iter_env where
  select_ret : Int
  errno_is_EINTR : Bool
  fd_isset : Bool
  run_inside : Bool
  read_ret : Int
  buf : List Nat
  sends : Nat → send_env
  run_cond : Bool

/-- Where the handling of a client connection stands. -/
inductive conn_status where
  | reading
  | loop_left
  | closed
  | process_exited
  deriving DecidableEq, Repr

/-- The variables that the `do ... while` loop works on. -/
structure conn_state where
  rc : List remoteconnection
  n : Int
  status : conn_status
  deriving DecidableEq, Repr

/-- The loop condition `while (n>0 && run)`, reached at the end of the body and
by every `continue`. -/
def loop_cond (e : iter_env) (st : conn_state) : conn_state :=
  if st.n > 0 ∧ e.run_cond then { st with status := conn_status.reading }
  else { st with status := conn_status.loop_left }

/-- One pass of the `do ... while` loop (lines 281-306) for the client
descriptor `s`, with the calls it makes (`select` is not recorded). -/
def recv_iteration (want_dump : Int) (s : Int) (e : iter_env) (st : conn_state) :
    conn_state × List sys_call :=
  if e.select_ret < 0 then
    if !e.errno_is_EINTR || !e.run_inside then
      ({ st with status := conn_status.loop_left }, [])
    else (loop_cond e st, [])
  else if !e.fd_isset then
    if !e.run_inside then ({ st with status := conn_status.loop_left }, [])
    else (loop_cond e st, [])
  else
    let n := e.read_ret
    if n < 0 then
      ({ rc := st.rc, n := n, status := conn_status.process_exited },
       [sys_call.read s n, sys_call.error "receive"])
    else
      let dump : List sys_call :=
        if want_dump ≠ 0 then [sys_call.write 1 (e.buf.take n.toNat), sys_call.fsync 1]
        else []
      let r := send_all e.sends e.buf n.toNat 0 st.rc
      if r.exited then
        ({ rc := r.rc, n := n, status := conn_status.process_exited },
         [sys_call.read s n] ++ dump ++ r.trace)
      else
        (loop_cond e { rc := r.rc, n := n, status := conn_status.reading },
         [sys_call.read s n] ++ dump ++ r.trace)

/-- The `do ... while` loop, run on the answers that are given: it goes on
while the status is `reading`. -/
def recv_loop (want_dump : Int) (s : Int) :
    List iter_env → conn_state → conn_state × List sys_call
  | [], st => (st, [])
  | e :: es, st =>
    match st.status with
    | conn_status.reading =>
      let r := recv_iteration want_dump s e st
      let t := recv_loop want_dump s es r.1
      (t.1, r.2 ++ t.2)
    | _ => (st, [])

/-- Handling of one accepted client connection `s` (lines 281-318): the
`do ... while` loop, then, when the loop is left, `close_rc` on every record
and `close(s)`.  `n` is the value the variable has on entry. -/
def handle_connection (want_dump : Int) (s : Int) (envs : List iter_env)
    (rc : List remoteconnection) (n : Int) : conn_state × List sys_call :=
  let r := recv_loop want_dump s envs { rc := rc, n := n, status := conn_status.reading }
  match r.1.status with
  | conn_status.loop_left =>
    let c := close_all r.1.rc
    ({ rc := c.rc, n := r.1.n, status := conn_status.closed },
     r.2 ++ c.trace ++ [sys_call.close s])
  | _ => r

/-- The descriptors returned by the `socket` calls of a trace. -/
def sockets_of : List sys_call → List Int
  | [] => []
  | sys_call.socket fd :: rest => fd :: sockets_of rest
  | _ :: rest => sockets_of rest

/-- Every `sendto` of the trace is made on a descriptor in `opened` or on one
that an earlier `socket` call of the trace returned. -/
def sends_on_sockets_from (opened : List Int) : List sys_call → Bool
  | [] => true
  | sys_call.socket fd :: rest => sends_on_sockets_from (fd :: opened) rest
  | sys_call.sendto fd _ _ _ :: rest =>
    decide (fd ∈ opened) && sends_on_sockets_from opened rest
  | _ :: rest => sends_on_sockets_from opened rest

/-- Every `sendto` of the trace is made on a descriptor that an earlier
`socket` call of the same trace returned. -/
def sends_on_own_sockets (trace : List sys_call) : Bool :=
  sends_on_sockets_from [] trace

/-- A record is disconnected, or its descriptor is one of `opened`. -/
def owned (opened : List Int) (r : remoteconnection) : Prop :=
  r.sock < 0 ∨ r.sock ∈ opened

/-- Is this call a `sendto`? -/
def is_sendto : sys_call → Bool
  | sys_call.sendto _ _ _ _ => true
  | _ => false

/-- Sample command line with the destination ":3334". -/
def sample_argv_forward : List (List Char) :=
  ["repeater_tcp".toList, "3333".toList, ":3334".toList]

/-- Sample command line whose destination argument has no colon. -/
def sample_argv_no_colon : List (List Char) :=
  ["repeater_tcp".toList, "3333".toList, "localhost".toList]

/-- Sample answers for one `send_rc`: `socket` returns 5, the host resolves,
`connect` and `sendto` succeed. -/
def sample_send_env : send_env :=
  { opening := { socket_ret := 5, hp := some 2130706433, connect_ret := 0 },
    sendto_ret := 3 }

/-- Sample pass of the receive loop: three bytes are read. -/
def sample_iter_data : iter_env :=
  { select_ret := 1, errno_is_EINTR := false, fd_isset := true, run_inside := true,
    read_ret := 3, buf := [47, 97, 0, 0], sends := fun _ => sample_send_env,
    run_cond := true }

/-- Sample pass of the receive loop: end of stream (`read` returns 0). -/
def sample_iter_eof : iter_env :=
  { select_ret := 1, errno_is_EINTR := false, fd_isset := true, run_inside := true,
    read_ret := 0, buf := [47, 97, 0, 0], sends := fun _ => sample_send_env,
    run_cond := true }

/-- Sample destination record as the argument loop leaves it for ":3334". -/
def sample_rc : remoteconnection :=
  { sock := -1, addr := { sin_family := 0, sin_addr := 0, sin_port := 0 },
    hostname := some localhost, port := 3334 }

/-! ## Properties of the display widget -/

lemma put_frame_fresh (parse : dv_decoder → List Nat → dv_decoder)
    (w : dv_display_widget) (buffer : pixels_pitch) (f : frame)
    (hne : f.serial_num ≠ w.decoded_serial_num_) (hbuf : buffer.first ≠ 0) :
    put_frame parse w buffer f =
      ({ decoder_ := parse w.decoder_ f.buffer, decoded_serial_num_ := f.serial_num },
       decode_step_calls parse w buffer f) := by
  simp [put_frame, decode_step_calls, hne, hbuf]

lemma put_frame_seen (parse : dv_decoder → List Nat → dv_decoder)
    (w : dv_display_widget) (buffer : pixels_pitch) (f : frame)
    (heq : f.serial_num = w.decoded_serial_num_) :
    put_frame parse w buffer f = (w, []) := by
  simp [put_frame, heq]

lemma put_frame_records_serial (parse : dv_decoder → List Nat → dv_decoder)
    (w : dv_display_widget) (buffer : pixels_pitch) (f : frame) (hbuf : buffer.first ≠ 0) :
    (put_frame parse w buffer f).1.decoded_serial_num_ = f.serial_num := by
  by_cases h : f.serial_num = w.decoded_serial_num_
  · rw [put_frame_seen parse w buffer f h]; exact h.symm
  · rw [put_frame_fresh parse w buffer f h hbuf]

lemma put_frames_append (parse : dv_decoder → List Nat → dv_decoder)
    (w : dv_display_widget) (xs ys : List (frame × pixels_pitch)) :
    put_frames parse w (xs ++ ys) =
      ((put_frames parse (put_frames parse w xs).1 ys).1,
       (put_frames parse w xs).2 ++ (put_frames parse (put_frames parse w xs).1 ys).2) := by
  induction xs generalizing w with
  | nil => simp [put_frames]
  | cons x xs ih => simp [put_frames, ih, List.append_assoc]

lemma put_frames_snoc (parse : dv_decoder → List Nat → dv_decoder)
    (w : dv_display_widget) (xs : List (frame × pixels_pitch)) (d : frame × pixels_pitch) :
    put_frames parse w (xs ++ [d]) =
      ((put_frame parse (put_frames parse w xs).1 d.2 d.1).1,
       (put_frames parse w xs).2 ++ (put_frame parse (put_frames parse w xs).1 d.2 d.1).2) := by
  rw [put_frames_append]; simp [put_frames]

/-- After a run of deliveries with buffers, the recorded serial number is that
of the last frame delivered (or the initial one when nothing was delivered). -/
lemma put_frames_decoded (parse : dv_decoder → List Nat → dv_decoder)
    (w : dv_display_widget) (ds : List (frame × pixels_pitch))
    (hbuf : ∀ d ∈ ds, d.2.first ≠ 0) :
    (put_frames parse w ds).1.decoded_serial_num_ =
      ((ds.map delivery_serial).getLast?).getD w.decoded_serial_num_ := by
  induction ds using List.reverseRecOn with
  | nil => simp [put_frames]
  | append_singleton xs d _ =>
    rw [put_frames_snoc]
    rw [put_frame_records_serial parse _ d.2 d.1 (hbuf d (by simp))]
    simp [List.getLast?_append, delivery_serial]

/-- In a non-decreasing sequence that never shows the initial serial number
`s0`, a serial number was seen before exactly when it is the one recorded. -/
lemma seen_iff_last (s0 : Int) (pre : List Int) (x : Int)
    (hsorted : (pre ++ [x]).Pairwise (· ≤ ·)) (hs0 : x ≠ s0) :
    x ∈ pre ↔ x = (pre.getLast?).getD s0 := by
  induction pre using List.reverseRecOn with
  | nil => simp [hs0]
  | append_singleton ys y _ =>
    have hlast : ((ys ++ [y]).getLast?).getD s0 = y := by simp [List.getLast?_append]
    rw [hlast]
    rw [List.pairwise_append] at hsorted
    obtain ⟨hys, -, hle⟩ := hsorted
    rw [List.pairwise_append] at hys
    obtain ⟨-, -, hys2⟩ := hys
    constructor
    · intro hx
      have h1 : y ≤ x := hle y (by simp) x (by simp)
      rcases List.mem_append.1 hx with h | h
      · have h2 : x ≤ y := hys2 x h y (by simp)
        omega
      · simpa using h
    · intro hx
      simp [hx]

/-- The delivery that follows a non-decreasing run `pre` on a fresh widget:
skipped when its serial number occurs in `pre`, decoded otherwise. -/
lemma put_frame_after (parse : dv_decoder → List Nat → dv_decoder) (quality : Int)
    (pre : List (frame × pixels_pitch)) (d : frame × pixels_pitch)
    (hsorted : ((pre ++ [d]).map delivery_serial).Pairwise (· ≤ ·))
    (hsentinel : d.1.serial_num ≠ -1)
    (hbuf : ∀ x ∈ pre ++ [d], x.2.first ≠ 0) :
    (delivery_serial d ∈ pre.map delivery_serial →
      put_frame parse (put_frames parse (dv_display_widget.new quality) pre).1 d.2 d.1 =
        ((put_frames parse (dv_display_widget.new quality) pre).1, [])) ∧
    (delivery_serial d ∉ pre.map delivery_serial →
      put_frame parse (put_frames parse (dv_display_widget.new quality) pre).1 d.2 d.1 =
        ({ decoder_ := parse (put_frames parse (dv_display_widget.new quality) pre).1.decoder_
                          d.1.buffer,
           decoded_serial_num_ := d.1.serial_num },
         decode_step_calls parse (put_frames parse (dv_display_widget.new quality) pre).1
           d.2 d.1)) := by
  have hdec := put_frames_decoded parse (dv_display_widget.new quality) pre
    (fun x hx => hbuf x (List.mem_append_left _ hx))
  have hiff := seen_iff_last (-1) (pre.map delivery_serial) (delivery_serial d)
    (by simpa using hsorted) hsentinel
  have hinit : (dv_display_widget.new quality).decoded_serial_num_ = -1 := rfl
  rw [hinit] at hdec
  constructor
  · intro hmem
    apply put_frame_seen
    rw [hdec]
    exact hiff.1 hmem
  · intro hmem
    apply put_frame_fresh
    · rw [hdec]
      exact fun h => hmem (hiff.2 h)
    · exact hbuf d (by simp)

lemma countP_decode_step_parse (parse : dv_decoder → List Nat → dv_decoder)
    (w : dv_display_widget) (buffer : pixels_pitch) (f : frame) (s : Int) :
    (decode_step_calls parse w buffer f).countP (is_parse_of s) =
      if f.serial_num = s then 1 else 0 := by
  by_cases h : f.serial_num = s <;>
    simp [decode_step_calls, List.countP_cons, is_parse_of, h]

lemma countP_decode_step_decode (parse : dv_decoder → List Nat → dv_decoder)
    (w : dv_display_widget) (buffer : pixels_pitch) (f : frame) (s : Int) :
    (decode_step_calls parse w buffer f).countP (is_decode_of s) =
      if f.serial_num = s then 1 else 0 := by
  by_cases h : f.serial_num = s <;>
    simp [decode_step_calls, List.countP_cons, is_decode_of, h]

/-- Call counts of a non-decreasing run on a fresh widget: one
`dv_parse_header` and one `dv_decode_full_frame` for each serial number that
occurs, none for the others, and three calls per distinct serial number. -/
lemma put_frames_counts (parse : dv_decoder → List Nat → dv_decoder) (quality : Int)
    (ds : List (frame × pixels_pitch))
    (hsorted : (ds.map delivery_serial).Pairwise (· ≤ ·))
    (hsentinel : ∀ d ∈ ds, d.1.serial_num ≠ -1)
    (hbuf : ∀ d ∈ ds, d.2.first ≠ 0) :
    (∀ s : Int,
      (put_frames parse (dv_display_widget.new quality) ds).2.countP (is_parse_of s) =
        (if s ∈ ds.map delivery_serial then 1 else 0) ∧
      (put_frames parse (dv_display_widget.new quality) ds).2.countP (is_decode_of s) =
        (if s ∈ ds.map delivery_serial then 1 else 0)) ∧
    (put_frames parse (dv_display_widget.new quality) ds).2.length =
      3 * (ds.map delivery_serial).toFinset.card := by
  induction ds using List.reverseRecOn with
  | nil => simp [put_frames]
  | append_singleton xs d ih =>
    have hsorted_xs : (xs.map delivery_serial).Pairwise (· ≤ ·) := by
      rw [List.map_append, List.pairwise_append] at hsorted
      exact hsorted.1
    obtain ⟨ihc, ihl⟩ := ih hsorted_xs
      (fun x hx => hsentinel x (List.mem_append_left _ hx))
      (fun x hx => hbuf x (List.mem_append_left _ hx))
    obtain ⟨hseen, hfresh⟩ := put_frame_after parse quality xs d hsorted
      (hsentinel d (by simp)) hbuf
    rw [put_frames_snoc]
    by_cases hmem : delivery_serial d ∈ xs.map delivery_serial
    · rw [hseen hmem]
      refine ⟨fun s => ?_, ?_⟩
      · have hs : (s ∈ (xs ++ [d]).map delivery_serial) ↔ s ∈ xs.map delivery_serial := by
          simp only [List.map_append, List.mem_append, List.map_cons, List.map_nil,
            List.mem_singleton]
          constructor
          · rintro (h | h)
            · exact h
            · rw [h]; exact hmem
          · exact fun h => Or.inl h
        simp only [List.append_nil, hs]
        exact ihc s
      · have hcard : ((xs ++ [d]).map delivery_serial).toFinset =
            (xs.map delivery_serial).toFinset := by
          ext a
          simp only [List.map_append, List.map_cons, List.map_nil, List.toFinset_append,
            List.toFinset_cons, List.toFinset_nil, Finset.mem_union, List.mem_toFinset,
            Finset.mem_insert, Finset.not_mem_empty, or_false]
          constructor
          · rintro (h | h)
            · exact h
            · rw [h]; exact hmem
          · exact fun h => Or.inl h
        simp only [List.append_nil, hcard]
        exact ihl
    · rw [hfresh hmem]
      refine ⟨fun s => ?_, ?_⟩
      · have hs2 : (s ∈ (xs ++ [d]).map delivery_serial) ↔
            (s ∈ xs.map delivery_serial ∨ d.1.serial_num = s) := by
          rw [List.map_append, List.mem_append]
          simp [delivery_serial, eq_comm]
        rw [List.countP_append, List.countP_append, countP_decode_step_parse,
          countP_decode_step_decode, (ihc s).1, (ihc s).2]
        by_cases hs : s ∈ xs.map delivery_serial
        · have hne : ¬ d.1.serial_num = s := by
            intro h
            apply hmem
            rw [delivery_serial, h]
            exact hs
          rw [if_pos hs, if_neg hne, if_pos (hs2.2 (Or.inl hs))]
          exact ⟨rfl, rfl⟩
        · by_cases hd : d.1.serial_num = s
          · rw [if_neg hs, if_pos hd, if_pos (hs2.2 (Or.inr hd))]
            exact ⟨rfl, rfl⟩
          · have hs3 : s ∉ (xs ++ [d]).map delivery_serial := by
              intro h
              rcases hs2.1 h with h | h
              · exact hs h
              · exact hd h
            rw [if_neg hs, if_neg hd, if_neg hs3]
            exact ⟨rfl, rfl⟩
      · have hnot : delivery_serial d ∉ (xs.map delivery_serial).toFinset := by
          simpa using hmem
        have hcard : ((xs ++ [d]).map delivery_serial).toFinset =
            insert (delivery_serial d) (xs.map delivery_serial).toFinset := by
          ext a
          simp only [List.map_append, List.map_cons, List.map_nil, List.toFinset_append,
            List.toFinset_cons, List.toFinset_nil, Finset.mem_union, List.mem_toFinset,
            Finset.mem_insert, Finset.not_mem_empty, or_false]
          tauto
        rw [hcard, Finset.card_insert_of_not_mem hnot, List.length_append, ihl]
        simp [decode_step_calls]
        ring

/-- C2: for every finite sequence of frames delivered through `put_frame` to
one new display widget, with non-decreasing serial numbers, none equal to the
initial `decoded_serial_num_ = -1`, and a non-null frame buffer at every
delivery, the decode step (`dv_parse_header`, `dv_decode_full_frame`,
`draw_frame`) runs on a frame exactly when no earlier frame of the sequence
carries its serial number, a frame whose serial number was already decoded
leaves the widget state unchanged and makes no call, and so the step runs
exactly once for each distinct serial number of the sequence. -/
theorem put_frames_decodes_once_per_serial
    (parse : dv_decoder → List Nat → dv_decoder) (quality : Int)
    (ds : List (frame × pixels_pitch))
    (hsorted : (ds.map delivery_serial).Pairwise (· ≤ ·))
    (hsentinel : ∀ d ∈ ds, d.1.serial_num ≠ -1)
    (hbuf : ∀ d ∈ ds, d.2.first ≠ 0) :
    (∀ pre d post, ds = pre ++ d :: post →
      (delivery_serial d ∉ pre.map delivery_serial →
        put_frame parse (put_frames parse (dv_display_widget.new quality) pre).1 d.2 d.1 =
          ({ decoder_ :=
               parse (put_frames parse (dv_display_widget.new quality) pre).1.decoder_
                 d.1.buffer,
             decoded_serial_num_ := d.1.serial_num },
           [dv_call.dv_parse_header d.1,
            dv_call.dv_decode_full_frame d.1 d.2.first d.2.second,
            dv_call.draw_frame
              (parse (put_frames parse (dv_display_widget.new quality) pre).1.decoder_
                d.1.buffer).width
              (parse (put_frames parse (dv_display_widget.new quality) pre).1.decoder_
                d.1.buffer).height])) ∧
      (delivery_serial d ∈ pre.map delivery_serial →
        put_frame parse (put_frames parse (dv_display_widget.new quality) pre).1 d.2 d.1 =
          ((put_frames parse (dv_display_widget.new quality) pre).1, []))) ∧
    (∀ s ∈ ds.map delivery_serial,
      (put_frames parse (dv_display_widget.new quality) ds).2.countP (is_parse_of s) = 1 ∧
      (put_frames parse (dv_display_widget.new quality) ds).2.countP (is_decode_of s) = 1) ∧
    (put_frames parse (dv_display_widget.new quality) ds).2.length =
      3 * (ds.map delivery_serial).toFinset.card := by
  refine ⟨?_, ?_, ?_⟩
  · intro pre d post hds
    have hsplit : ds = (pre ++ [d]) ++ post := by rw [hds]; simp
    have hsorted_pre : ((pre ++ [d]).map delivery_serial).Pairwise (· ≤ ·) := by
      rw [hsplit, List.map_append, List.pairwise_append] at hsorted
      exact hsorted.1
    have hmem : ∀ x ∈ pre ++ [d], x ∈ ds := by
      intro x hx
      rw [hsplit]
      exact List.mem_append_left _ hx
    obtain ⟨hseen, hfresh⟩ := put_frame_after parse quality pre d hsorted_pre
      (hsentinel d (hmem d (by simp))) (fun x hx => hbuf x (hmem x hx))
    exact ⟨fun h => hfresh h, hseen⟩
  · intro s hs
    have h := (put_frames_counts parse quality ds hsorted hsentinel hbuf).1 s
    rw [if_pos hs] at h
    exact h
  · exact (put_frames_counts parse quality ds hsorted hsentinel hbuf).2

/-- C2, on the sample deliveries with serial numbers 5, 5, 7. -/
theorem put_frames_decodes_once_per_serial_witness :
    (sample_deliveries.map delivery_serial).Pairwise (· ≤ ·) ∧
    (∀ d ∈ sample_deliveries, d.1.serial_num ≠ -1) ∧
    (∀ d ∈ sample_deliveries, d.2.first ≠ 0) ∧
    (∀ s ∈ sample_deliveries.map delivery_serial,
      (put_frames sample_parse (dv_display_widget.new 5) sample_deliveries).2.countP
        (is_parse_of s) = 1 ∧
      (put_frames sample_parse (dv_display_widget.new 5) sample_deliveries).2.countP
        (is_decode_of s) = 1) :=
  ⟨by decide, by decide, by decide,
   (put_frames_decodes_once_per_serial sample_parse 5 sample_deliveries
      (by decide) (by decide) (by decide)).2.1⟩

/-- C1, refuted: two new display widgets, each with a frame buffer, are handed
the frame with serial number 0; `dv_parse_header` and `dv_decode_full_frame`
are each invoked twice for that serial number, not once. -/
theorem fan_out_two_widgets_decode_twice :
    2 ≤ sample_widgets.length ∧
    (∀ wb ∈ sample_widgets, wb.2.first ≠ 0) ∧
    (fan_out sample_parse { serial_num := 0, buffer := [] } sample_widgets).countP
      (is_parse_of 0) = 2 ∧
    (fan_out sample_parse { serial_num := 0, buffer := [] } sample_widgets).countP
      (is_decode_of 0) = 2 ∧
    ¬ ((fan_out sample_parse { serial_num := 0, buffer := [] } sample_widgets).countP
      (is_decode_of 0) = 1) := by
  decide

/-- C1, amended: for every frame and every list of display widgets, each with
a frame buffer available and none with the frame's serial number recorded as
decoded, that are each handed the frame through `put_frame`, the invocations
of `dv_parse_header` and of `dv_decode_full_frame` for that serial number
number one per widget, as many in total as there are widgets; a widget that is
handed the frame again makes no call. -/
theorem fan_out_decodes_once_per_widget
    (parse : dv_decoder → List Nat → dv_decoder) (f : frame)
    (ws : List (dv_display_widget × pixels_pitch))
    (hbuf : ∀ wb ∈ ws, wb.2.first ≠ 0)
    (hnew : ∀ wb ∈ ws, wb.1.decoded_serial_num_ ≠ f.serial_num) :
    (fan_out parse f ws).countP (is_parse_of f.serial_num) = ws.length ∧
    (fan_out parse f ws).countP (is_decode_of f.serial_num) = ws.length ∧
    (∀ wb ∈ ws, ∀ again : pixels_pitch,
      (put_frame parse (put_frame parse wb.1 wb.2 f).1 again f).2 = []) := by
  induction ws with
  | nil => simp [fan_out]
  | cons wb rest ih =>
    obtain ⟨ih1, ih2, ih3⟩ := ih (fun x hx => hbuf x (List.mem_cons_of_mem _ hx))
      (fun x hx => hnew x (List.mem_cons_of_mem _ hx))
    have hb := hbuf wb (List.mem_cons_self _ _)
    have hn := hnew wb (List.mem_cons_self _ _)
    have hstep := put_frame_fresh parse wb.1 wb.2 f (Ne.symm hn) hb
    refine ⟨?_, ?_, ?_⟩
    · rw [fan_out, hstep, List.countP_append, countP_decode_step_parse, ih1]
      simp [Nat.add_comm]
    · rw [fan_out, hstep, List.countP_append, countP_decode_step_decode, ih2]
      simp [Nat.add_comm]
    · intro x hx again
      rcases List.mem_cons.1 hx with h | h
      · rw [h, hstep, put_frame_seen parse _ again f rfl]
      · exact ih3 x h again

/-- C1 amended, on the two sample widgets and the frame with serial number 0. -/
theorem fan_out_decodes_once_per_widget_witness :
    (∀ wb ∈ sample_widgets, wb.2.first ≠ 0) ∧
    (∀ wb ∈ sample_widgets, wb.1.decoded_serial_num_ ≠ 0) ∧
    (fan_out sample_parse { serial_num := 0, buffer := [] } sample_widgets).countP
      (is_parse_of 0) = 2 ∧
    (fan_out sample_parse { serial_num := 0, buffer := [] } sample_widgets).countP
      (is_decode_of 0) = 2 :=
  ⟨by decide, by decide,
   (fan_out_decodes_once_per_widget sample_parse { serial_num := 0, buffer := [] }
      sample_widgets (by decide) (by decide)).1,
   (fan_out_decodes_once_per_widget sample_parse { serial_num := 0, buffer := [] }
      sample_widgets (by decide) (by decide)).2.1⟩

/-! ## Properties of the mixer test driver -/

lemma driver_run_snoc (s : driver_state) (schedule : List driver_step) (x : driver_step) :
    driver_run s (schedule ++ [x]) = driver_next (driver_run s schedule) x := by
  simp [driver_run, List.foldl_append]

lemma driver_reachable_next (s : driver_state) (x : driver_step) (h : driver_reachable s) :
    driver_reachable (driver_next s x) := by
  obtain ⟨schedule, hs⟩ := h
  exact ⟨schedule ++ [x], by rw [driver_run_snoc, hs]⟩

/-- Sourcing and sinking one frame at a time reaches every state with equal
counters. -/
lemma driver_reachable_diag (k : Nat) (hk : k < UINT_RANGE) :
    driver_reachable { source_count := k, sink_count := k } := by
  induction k with
  | zero => exact ⟨[], rfl⟩
  | succ k ih =>
    have hk1 : k < UINT_RANGE := Nat.lt_of_succ_lt hk
    have h1 := driver_reachable_next _ driver_step.produce (ih hk1)
    have h2 := driver_reachable_next _ driver_step.sink h1
    have hprod : driver_next { source_count := k, sink_count := k } driver_step.produce =
        { source_count := k + 1, sink_count := k } := by
      unfold UINT_RANGE at hk hk1
      have hfl : in_flight { source_count := k, sink_count := k } = 0 := by
        simp only [in_flight, UINT_RANGE]; omega
      have hmod : (k + 1) % 4294967296 = k + 1 := Nat.mod_eq_of_lt hk
      simp [driver_next, producer_step, hfl, UINT_RANGE, hmod]
    have hsink : driver_next { source_count := k + 1, sink_count := k } driver_step.sink =
        { source_count := k + 1, sink_count := k + 1 } := by
      unfold UINT_RANGE at hk
      have hmod : (k + 1) % 4294967296 = k + 1 := Nat.mod_eq_of_lt hk
      simp [driver_next, sink_step, UINT_RANGE, hmod]
    rw [hprod] at h2
    rw [hsink] at h2
    exact h2

/-- The counters stay in the range of `unsigned` and their unsigned difference
stays at most 8, whatever step is taken. -/
lemma driver_next_in_flight (s : driver_state) (x : driver_step)
    (h : s.source_count < UINT_RANGE ∧ s.sink_count < UINT_RANGE ∧ in_flight s ≤ 8) :
    (driver_next s x).source_count < UINT_RANGE ∧
    (driver_next s x).sink_count < UINT_RANGE ∧ in_flight (driver_next s x) ≤ 8 := by
  obtain ⟨h1, h2, h3⟩ := h
  cases x with
  | produce =>
    simp only [driver_next, producer_step]
    split
    · rename_i hlt
      simp only [in_flight, UINT_RANGE] at *
      refine ⟨?_, ?_, ?_⟩ <;> omega
    · exact ⟨h1, h2, h3⟩
  | sink =>
    simp only [driver_next, sink_step]
    split
    · rename_i hlt
      simp only [in_flight, UINT_RANGE] at *
      refine ⟨?_, ?_, ?_⟩ <;> omega
    · exact ⟨h1, h2, h3⟩

lemma driver_run_in_flight (schedule : List driver_step) :
    (driver_run driver_init schedule).source_count < UINT_RANGE ∧
    (driver_run driver_init schedule).sink_count < UINT_RANGE ∧
    in_flight (driver_run driver_init schedule) ≤ 8 := by
  induction schedule using List.reverseRecOn with
  | nil => simp [driver_run, driver_init, in_flight, UINT_RANGE]
  | append_singleton xs x ih =>
    rw [driver_run_snoc]
    exact driver_next_in_flight _ x ih

/-- While fewer than 2^32 producer steps have been taken the source counter
has not wrapped: it is at most the number of producer steps, the sink counter
is at most the source counter, and they differ by at most 8. -/
lemma driver_run_before_wrap (schedule : List driver_step)
    (h : schedule.count driver_step.produce < UINT_RANGE) :
    (driver_run driver_init schedule).source_count ≤ schedule.count driver_step.produce ∧
    (driver_run driver_init schedule).sink_count ≤
      (driver_run driver_init schedule).source_count ∧
    (driver_run driver_init schedule).source_count -
      (driver_run driver_init schedule).sink_count ≤ 8 := by
  induction schedule using List.reverseRecOn with
  | nil => simp [driver_run, driver_init]
  | append_singleton xs x ih =>
    rw [driver_run_snoc]
    cases x with
    | produce =>
      have hc : (xs ++ [driver_step.produce]).count driver_step.produce =
          xs.count driver_step.produce + 1 := by simp
      rw [hc] at h ⊢
      obtain ⟨i1, i2, i3⟩ := ih (by omega)
      simp only [driver_next, producer_step]
      split
      · rename_i hlt
        simp only [in_flight, UINT_RANGE] at *
        refine ⟨?_, ?_, ?_⟩ <;> omega
      · exact ⟨by omega, i2, i3⟩
    | sink =>
      have hc : (xs ++ [driver_step.sink]).count driver_step.produce =
          xs.count driver_step.produce := by simp
      rw [hc] at h ⊢
      obtain ⟨i1, i2, i3⟩ := ih h
      simp only [driver_next, sink_step]
      split
      · rename_i hlt
        simp only [UINT_RANGE] at *
        refine ⟨?_, ?_, ?_⟩ <;> omega
      · exact ⟨i1, i2, i3⟩

/-- C3, refuted: the state with `source_count = 0` and
`sink_count = 4294967295` is reachable (each of the first 4294967295 frames is
sunk right after it is sourced, then one more frame is sourced and
`++source_count` wraps to 0), and there `sink_count <= source_count` fails. -/
theorem driver_reaches_wrapped_source_count :
    driver_reachable { source_count := 0, sink_count := 4294967295 } ∧
    ¬ ((driver_state.mk 0 4294967295).sink_count ≤
        (driver_state.mk 0 4294967295).source_count ∧
       (driver_state.mk 0 4294967295).source_count -
        (driver_state.mk 0 4294967295).sink_count ≤ 8) := by
  constructor
  · have h := driver_reachable_next _ driver_step.produce
      (driver_reachable_diag 4294967295 (by unfold UINT_RANGE; omega))
    have hstep : driver_next { source_count := 4294967295, sink_count := 4294967295 }
        driver_step.produce = { source_count := 0, sink_count := 4294967295 } := by
      simp [driver_next, producer_step, in_flight, UINT_RANGE]
    rw [hstep] at h
    exact h
  · simp

/-- C3, amended: in the mixer test driver, with the counters `source_count`
and `sink_count` as 32-bit unsigned values starting at (0, 0), the producer
step incrementing `source_count` only when the unsigned difference
`source_count - sink_count` is below 8 and the sink step incrementing
`sink_count` only when `sink_count < source_count`, every reachable state has
an unsigned difference `source_count - sink_count` of at most 8; and every
state reached with fewer than 2^32 producer steps satisfies
`sink_count <= source_count` and `source_count - sink_count <= 8`. -/
theorem driver_in_flight_at_most_8 (schedule : List driver_step) :
    in_flight (driver_run driver_init schedule) ≤ 8 ∧
    (schedule.count driver_step.produce < UINT_RANGE →
      (driver_run driver_init schedule).sink_count ≤
        (driver_run driver_init schedule).source_count ∧
      (driver_run driver_init schedule).source_count -
        (driver_run driver_init schedule).sink_count ≤ 8) :=
  ⟨(driver_run_in_flight schedule).2.2,
   fun h => ⟨(driver_run_before_wrap schedule h).2.1, (driver_run_before_wrap schedule h).2.2⟩⟩

/-- C3 amended, on the schedule produce, produce, sink: one frame is in
flight. -/
theorem driver_in_flight_at_most_8_witness :
    sample_schedule.count driver_step.produce < UINT_RANGE ∧
    driver_run driver_init sample_schedule = { source_count := 2, sink_count := 1 } ∧
    (driver_run driver_init sample_schedule).sink_count ≤
      (driver_run driver_init sample_schedule).source_count ∧
    (driver_run driver_init sample_schedule).source_count -
      (driver_run driver_init sample_schedule).sink_count ≤ 8 :=
  ⟨by decide, by decide,
   (driver_in_flight_at_most_8 sample_schedule).2 (by decide)⟩

/-! ## Properties of the TCP repeater -/

lemma colon_ne_NUL : ¬ (':' = NUL) := by decide

lemma strchr_absent (s : List Char) (h : ':' ∉ s) : strchr (s ++ [NUL]) ':' = none := by
  induction s with
  | nil => simp [strchr, colon_ne_NUL, Ne.symm colon_ne_NUL]
  | cons x xs ih =>
    have hx : ¬ (x = ':') := fun e => h (by simp [e])
    have hxs : ':' ∉ xs := fun e => h (List.mem_cons_of_mem _ e)
    by_cases hn : x = NUL
    · rw [hn] at hx
      simp [strchr, hx, hn]
    · simp [strchr, hx, hn, ih hxs]

lemma strchr_first (a rest : List Char) (hc : ':' ∉ a) (hn : NUL ∉ a) :
    strchr (a ++ ':' :: rest) ':' = some a.length := by
  induction a with
  | nil => simp [strchr]
  | cons x xs ih =>
    have hx : ¬ (x = ':') := fun e => hc (by simp [e])
    have hx0 : ¬ (x = NUL) := fun e => hn (by simp [e])
    have h1 : ':' ∉ xs := fun e => hc (List.mem_cons_of_mem _ e)
    have h2 : NUL ∉ xs := fun e => hn (List.mem_cons_of_mem _ e)
    simp [strchr, hx, hx0, ih h1 h2]

lemma set_at_length (a rest : List Char) (c x : Char) :
    (a ++ c :: rest).set a.length x = a ++ x :: rest := by
  induction a with
  | nil => simp
  | cons y ys ih => simp [ih]

lemma takeWhile_until_NUL (a rest : List Char) (hn : NUL ∉ a) :
    (a ++ NUL :: rest).takeWhile (· ≠ NUL) = a := by
  induction a with
  | nil => simp
  | cons y ys ih =>
    have hy : ¬ (y = NUL) := fun e => hn (by simp [e])
    have h2 : NUL ∉ ys := fun e => hn (List.mem_cons_of_mem _ e)
    have ih2 := ih h2
    simp only [List.cons_append, List.takeWhile_cons, ne_eq, hy, not_false_eq_true,
      decide_True, if_true]
    exact congrArg (List.cons y) ih2

lemma c_str_head (a rest : List Char) (hn : NUL ∉ a) :
    c_str (a ++ NUL :: rest) 0 = a := by
  rw [c_str, List.drop_zero]
  exact takeWhile_until_NUL a rest hn

lemma c_str_tail (a b : List Char) (hn : NUL ∉ b) :
    c_str (a ++ NUL :: (b ++ [NUL])) (a.length + 1) = b := by
  have hdrop : (a ++ NUL :: (b ++ [NUL])).drop (a.length + 1) = b ++ [NUL] := by
    rw [List.drop_append_eq_append_drop]
    simp
  rw [c_str, hdrop]
  exact takeWhile_until_NUL b [] hn

/-- The result of `splithp` on an argument split at its first colon. -/
lemma splithp_at_first_colon (a b : List Char) (hc : ':' ∉ a) (hna : NUL ∉ a)
    (hnb : NUL ∉ b) (h0 : Option (List Char)) (p0 : Int) :
    splithp ((a ++ ':' :: b) ++ [NUL]) (some h0) (some p0) =
      { ret := 0, arg := (a ++ ':' :: b) ++ [NUL],
        host := some (some (if a = [] then localhost else a)),
        port := some (atoi b) } := by
  have hbuf : (a ++ ':' :: b) ++ [NUL] = a ++ ':' :: (b ++ [NUL]) := by simp
  rw [hbuf]
  unfold splithp
  rw [strchr_first a (b ++ [NUL]) hc hna]
  simp only [set_at_length, c_str_head a (b ++ [NUL]) hna, c_str_tail a b hnb, strdup]
  by_cases ha : a = []
  · simp [ha]
  · have hl : ¬ (a.length = 0) := fun e => ha (List.length_eq_zero.1 e)
    simp [ha, hl]

lemma split_at_first_colon (s : List Char) (h : ':' ∈ s) :
    s = s.takeWhile (· ≠ ':') ++ ':' :: (s.dropWhile (· ≠ ':')).drop 1 ∧
    ':' ∉ s.takeWhile (· ≠ ':') := by
  induction s with
  | nil => simp at h
  | cons x xs ih =>
    by_cases hx : x = ':'
    · simp [hx]
    · have hxs : ':' ∈ xs := by
        rcases List.mem_cons.1 h with e | e
        · exact absurd e.symm hx
        · exact e
      obtain ⟨i1, i2⟩ := ih hxs
      constructor
      · simp only [List.takeWhile_cons, List.dropWhile_cons, ne_eq, hx, not_false_eq_true,
          decide_True, if_true, List.cons_append]
        exact congrArg (List.cons x) i1
      · simp only [List.takeWhile_cons, ne_eq, hx, not_false_eq_true, decide_True, if_true,
          List.mem_cons, not_or]
        exact ⟨fun e => hx e.symm, i2⟩

/-- C4: `splithp` called with non-null `host` and `port` pointers on a C string
`s`.  When `s` contains no ':' it returns 1 and leaves `*host` and `*port` as
they were; when `s` contains a ':' it returns 0, sets `*port` to `atoi` of the
text after the first ':' and `*host` to a copy of the text before the first
':', or to "localhost" when that text is empty.  The argument buffer is the
same afterwards in both cases. -/
theorem splithp_splits_at_first_colon (s : List Char) (hnul : NUL ∉ s)
    (h0 : Option (List Char)) (p0 : Int) :
    (':' ∉ s →
      splithp (s ++ [NUL]) (some h0) (some p0) =
        { ret := 1, arg := s ++ [NUL], host := some h0, port := some p0 }) ∧
    (':' ∈ s →
      splithp (s ++ [NUL]) (some h0) (some p0) =
        { ret := 0, arg := s ++ [NUL],
          host := some (some (if s.takeWhile (· ≠ ':') = [] then localhost
                              else s.takeWhile (· ≠ ':'))),
          port := some (atoi ((s.dropWhile (· ≠ ':')).drop 1)) }) := by
  constructor
  · intro h
    unfold splithp
    rw [strchr_absent s h]
  · intro h
    have key : ∀ a b : List Char, s = a ++ ':' :: b → ':' ∉ a →
        splithp (s ++ [NUL]) (some h0) (some p0) =
          { ret := 0, arg := s ++ [NUL],
            host := some (some (if a = [] then localhost else a)),
            port := some (atoi b) } := by
      intro a b hs hc
      subst hs
      have hna : NUL ∉ a := fun e => hnul (List.mem_append_left _ e)
      have hnb : NUL ∉ b := fun e =>
        hnul (List.mem_append_right _ (List.mem_cons_of_mem _ e))
      exact splithp_at_first_colon a b hc hna hnb h0 p0
    obtain ⟨hs, hc⟩ := split_at_first_colon s h
    exact key _ _ hs hc

/-- C4, on the arguments "3333" (no colon), ":3334" and "example.org:3333". -/
theorem splithp_splits_at_first_colon_witness :
    (NUL ∉ "3333".toList ∧ ':' ∉ "3333".toList ∧
      splithp ("3333".toList ++ [NUL]) (some none) (some 0) =
        { ret := 1, arg := "3333".toList ++ [NUL], host := some none, port := some 0 }) ∧
    (NUL ∉ ":3334".toList ∧ ':' ∈ ":3334".toList ∧
      splithp (":3334".toList ++ [NUL]) (some none) (some 0) =
        { ret := 0, arg := ":3334".toList ++ [NUL], host := some (some localhost),
          port := some 3334 }) ∧
    (NUL ∉ "example.org:3333".toList ∧ ':' ∈ "example.org:3333".toList ∧
      splithp ("example.org:3333".toList ++ [NUL]) (some none) (some 0) =
        { ret := 0, arg := "example.org:3333".toList ++ [NUL],
          host := some (some "example.org".toList), port := some 3333 }) :=
  ⟨⟨by decide, by decide,
    (splithp_splits_at_first_colon "3333".toList (by decide) none 0).1 (by decide)⟩,
   ⟨by decide, by decide,
    (splithp_splits_at_first_colon ":3334".toList (by decide) none 0).2 (by decide)⟩,
   ⟨by decide, by decide,
    (splithp_splits_at_first_colon "example.org:3333".toList (by decide) none 0).2
      (by decide)⟩⟩

/-- C7, at the command line `repeater_tcp 3333 localhost`: the forwarding
argument has no ':', `splithp` returns 1, and the record `rc[0]` stays as
`calloc` left it, with `sock = 0` and a null `hostname`; every `send_rc` on it
begins with a `sendto` on descriptor 0 and no `socket` call.  For
`repeater_tcp 3333 :3334` the record has `sock = -1`, "localhost" and 3334. -/
theorem arg_without_colon_sends_on_descriptor_0 :
    main_args sample_argv_no_colon =
      Except.ok { lport := 3333, want_dump := 0, rc := [calloc_rc] } ∧
    calloc_rc.sock = 0 ∧ calloc_rc.hostname = none ∧
    (∀ (e : send_env) (buffer : List Nat) (len : Nat),
      (send_rc e calloc_rc buffer len).trace.head? =
        some (sys_call.sendto 0 (buffer.take len) calloc_rc.addr e.sendto_ret)) ∧
    main_args sample_argv_forward =
      Except.ok { lport := 3333, want_dump := 0, rc := [sample_rc] } := by
  refine ⟨rfl, rfl, rfl, ?_, rfl⟩
  intro e buffer len
  unfold send_rc
  simp only [calloc_rc]
  split_ifs <;> simp_all

lemma sockets_of_append (t1 t2 : List sys_call) :
    sockets_of (t1 ++ t2) = sockets_of t1 ++ sockets_of t2 := by
  induction t1 with
  | nil => simp [sockets_of]
  | cons c rest ih => cases c <;> simp [sockets_of, ih]

lemma sends_on_sockets_from_mono (t : List sys_call) (o o' : List Int)
    (hsub : ∀ x ∈ o, x ∈ o') (h : sends_on_sockets_from o t = true) :
    sends_on_sockets_from o' t = true := by
  induction t generalizing o o' with
  | nil => simp [sends_on_sockets_from]
  | cons c rest ih =>
    cases c with
    | socket fd =>
      simp only [sends_on_sockets_from] at h ⊢
      refine ih (fd :: o) (fd :: o') ?_ h
      intro x hx
      rcases List.mem_cons.1 hx with e | e
      · rw [e]; exact List.mem_cons_self _ _
      · exact List.mem_cons_of_mem _ (hsub x e)
    | sendto fd data addr ret =>
      simp only [sends_on_sockets_from, Bool.and_eq_true, decide_eq_true_eq] at h ⊢
      exact ⟨hsub fd h.1, ih o o' hsub h.2⟩
    | close fd => simp only [sends_on_sockets_from] at h ⊢; exact ih o o' hsub h
    | gethostbyname a b => simp only [sends_on_sockets_from] at h ⊢; exact ih o o' hsub h
    | connect a b c => simp only [sends_on_sockets_from] at h ⊢; exact ih o o' hsub h
    | read a b => simp only [sends_on_sockets_from] at h ⊢; exact ih o o' hsub h
    | write a b => simp only [sends_on_sockets_from] at h ⊢; exact ih o o' hsub h
    | fsync a => simp only [sends_on_sockets_from] at h ⊢; exact ih o o' hsub h
    | fprintf_stderr a b c => simp only [sends_on_sockets_from] at h ⊢; exact ih o o' hsub h
    | error a => simp only [sends_on_sockets_from] at h ⊢; exact ih o o' hsub h

lemma sends_on_sockets_from_append (t1 t2 : List sys_call) (o : List Int)
    (h1 : sends_on_sockets_from o t1 = true)
    (h2 : sends_on_sockets_from (sockets_of t1 ++ o) t2 = true) :
    sends_on_sockets_from o (t1 ++ t2) = true := by
  induction t1 generalizing o with
  | nil => simpa [sockets_of] using h2
  | cons c rest ih =>
    cases c with
    | socket fd =>
      simp only [sends_on_sockets_from, List.cons_append] at h1 ⊢
      refine ih (fd :: o) h1 (sends_on_sockets_from_mono t2 _ _ ?_ h2)
      intro x hx
      simp only [sockets_of, List.cons_append, List.mem_cons, List.mem_append] at hx ⊢
      tauto
    | sendto fd data addr ret =>
      simp only [sends_on_sockets_from, List.cons_append, Bool.and_eq_true,
        decide_eq_true_eq] at h1 ⊢
      exact ⟨h1.1, ih o h1.2 (by simpa [sockets_of] using h2)⟩
    | close fd =>
      simp only [sends_on_sockets_from, List.cons_append] at h1 ⊢
      exact ih o h1 (by simpa [sockets_of] using h2)
    | gethostbyname a b =>
      simp only [sends_on_sockets_from, List.cons_append] at h1 ⊢
      exact ih o h1 (by simpa [sockets_of] using h2)
    | connect a b c =>
      simp only [sends_on_sockets_from, List.cons_append] at h1 ⊢
      exact ih o h1 (by simpa [sockets_of] using h2)
    | read a b =>
      simp only [sends_on_sockets_from, List.cons_append] at h1 ⊢
      exact ih o h1 (by simpa [sockets_of] using h2)
    | write a b =>
      simp only [sends_on_sockets_from, List.cons_append] at h1 ⊢
      exact ih o h1 (by simpa [sockets_of] using h2)
    | fsync a =>
      simp only [sends_on_sockets_from, List.cons_append] at h1 ⊢
      exact ih o h1 (by simpa [sockets_of] using h2)
    | fprintf_stderr a b c =>
      simp only [sends_on_sockets_from, List.cons_append] at h1 ⊢
      exact ih o h1 (by simpa [sockets_of] using h2)
    | error a =>
      simp only [sends_on_sockets_from, List.cons_append] at h1 ⊢
      exact ih o h1 (by simpa [sockets_of] using h2)

lemma owned_mono (o o' : List Int) (r : remoteconnection) (hsub : ∀ x ∈ o, x ∈ o')
    (h : owned o r) : owned o' r := by
  rcases h with h | h
  · exact Or.inl h
  · exact Or.inr (hsub _ h)

/-- `send_rc` on an owned record sends only on owned descriptors and leaves an
owned record. -/
lemma send_rc_owned (e : send_env) (r : remoteconnection) (buffer : List Nat) (len : Nat)
    (o : List Int) (h : owned o r) :
    sends_on_sockets_from o (send_rc e r buffer len).trace = true ∧
    owned (sockets_of (send_rc e r buffer len).trace ++ o) (send_rc e r buffer len).rc := by
  unfold owned at h ⊢
  unfold send_rc open_rc close_rc
  by_cases hs : r.sock < 0
  · cases hhp : e.opening.hp with
    | none =>
      simp only [hs, if_true, hhp]
      split_ifs <;> simp_all [sends_on_sockets_from, sockets_of]
    | some a =>
      simp only [hs, if_true, hhp]
      split_ifs <;> simp_all [sends_on_sockets_from, sockets_of]
  · have hmem : r.sock ∈ o := by
      rcases h with h | h
      · exact absurd h hs
      · exact h
    simp only [hs, if_false]
    split_ifs <;> simp_all [sends_on_sockets_from, sockets_of]

lemma send_all_owned (sends : Nat → send_env) (buf : List Nat) (n k : Nat)
    (rcs : List remoteconnection) (o : List Int) (h : ∀ r ∈ rcs, owned o r) :
    sends_on_sockets_from o (send_all sends buf n k rcs).trace = true ∧
    (∀ r ∈ (send_all sends buf n k rcs).rc,
      owned (sockets_of (send_all sends buf n k rcs).trace ++ o) r) ∧
    (send_all sends buf n k rcs).rc.length = rcs.length := by
  induction rcs generalizing k o with
  | nil => simp [send_all, sends_on_sockets_from]
  | cons r rest ih =>
    obtain ⟨hs1, hs2⟩ := send_rc_owned (sends k) r buf n o (h r (List.mem_cons_self _ _))
    have hrest : ∀ x ∈ rest, owned (sockets_of (send_rc (sends k) r buf n).trace ++ o) x :=
      fun x hx => owned_mono o _ x (fun y hy => List.mem_append_right _ hy)
        (h x (List.mem_cons_of_mem _ hx))
    unfold send_all
    simp only []
    split_ifs with hex
    · refine ⟨hs1, ?_, by simp⟩
      intro x hx
      rcases List.mem_cons.1 hx with e | e
      · rw [e]; exact hs2
      · exact hrest x e
    · obtain ⟨i1, i2, i3⟩ := ih (k + 1) _ hrest
      refine ⟨sends_on_sockets_from_append _ _ o hs1 i1, ?_, by simp [i3]⟩
      intro x hx
      rcases List.mem_cons.1 hx with e | e
      · rw [e]
        refine owned_mono _ _ _ ?_ hs2
        intro y hy
        simp only [sockets_of_append, List.mem_append] at hy ⊢
        tauto
      · refine owned_mono _ _ _ ?_ (i2 x e)
        intro y hy
        simp only [sockets_of_append, List.mem_append] at hy ⊢
        tauto

lemma close_all_closed (rcs : List remoteconnection) (o : List Int) :
    (∀ r ∈ (close_all rcs).rc, r.sock = -1) ∧
    (close_all rcs).rc.length = rcs.length ∧
    sends_on_sockets_from o (close_all rcs).trace = true := by
  induction rcs with
  | nil => simp [close_all, sends_on_sockets_from]
  | cons r rest ih =>
    obtain ⟨i1, i2, i3⟩ := ih
    refine ⟨?_, by simp [close_all, i2], ?_⟩
    · intro x hx
      simp only [close_all, close_rc, List.mem_cons] at hx
      rcases hx with e | e
      · rw [e]
      · exact i1 x e
    · simpa [close_all, close_rc, sends_on_sockets_from] using i3

lemma loop_cond_rc (e : iter_env) (st : conn_state) : (loop_cond e st).rc = st.rc := by
  unfold loop_cond; split_ifs <;> rfl

lemma loop_cond_status (e : iter_env) (st : conn_state) :
    (loop_cond e st).status ≠ conn_status.closed := by
  unfold loop_cond; split_ifs <;> simp

/-- A pass of the receive loop on owned records sends only on owned
descriptors, leaves owned records, as many as before, and does not end in the
status `closed`. -/
lemma recv_iteration_owned (want_dump s : Int) (e : iter_env) (st : conn_state)
    (o : List Int) (h : ∀ r ∈ st.rc, owned o r) :
    sends_on_sockets_from o (recv_iteration want_dump s e st).2 = true ∧
    (∀ r ∈ (recv_iteration want_dump s e st).1.rc,
      owned (sockets_of (recv_iteration want_dump s e st).2 ++ o) r) ∧
    (recv_iteration want_dump s e st).1.rc.length = st.rc.length ∧
    (recv_iteration want_dump s e st).1.status ≠ conn_status.closed := by
  obtain ⟨a1, a2, a3⟩ := send_all_owned e.sends e.buf e.read_ret.toNat 0 st.rc o h
  have hl := loop_cond_rc e st
  have hl2 := loop_cond_rc e
    { rc := (send_all e.sends e.buf e.read_ret.toNat 0 st.rc).rc, n := e.read_ret,
      status := conn_status.reading }
  have hst := loop_cond_status e st
  have hst2 := loop_cond_status e
    { rc := (send_all e.sends e.buf e.read_ret.toNat 0 st.rc).rc, n := e.read_ret,
      status := conn_status.reading }
  unfold recv_iteration
  simp only []
  by_cases hw : want_dump = 0
  · split_ifs <;>
      simp_all [sends_on_sockets_from, sockets_of, sockets_of_append]
  · split_ifs <;>
      simp_all [sends_on_sockets_from, sockets_of, sockets_of_append]

lemma recv_loop_owned (want_dump s : Int) (envs : List iter_env) (st : conn_state)
    (o : List Int) (h : ∀ r ∈ st.rc, owned o r)
    (hst : st.status ≠ conn_status.closed) :
    sends_on_sockets_from o (recv_loop want_dump s envs st).2 = true ∧
    (recv_loop want_dump s envs st).1.rc.length = st.rc.length ∧
    (recv_loop want_dump s envs st).1.status ≠ conn_status.closed := by
  induction envs generalizing st o with
  | nil => simp [recv_loop, sends_on_sockets_from, hst]
  | cons e es ih =>
    unfold recv_loop
    split
    · obtain ⟨a1, a2, a3, a4⟩ := recv_iteration_owned want_dump s e st o h
      obtain ⟨i1, i2, i3⟩ := ih (recv_iteration want_dump s e st).1 _ a2 a4
      exact ⟨sends_on_sockets_from_append _ _ o a1 i1, by rw [i2, a3], i3⟩
    · simp [sends_on_sockets_from, hst]

lemma handle_connection_cases (want_dump s : Int) (envs : List iter_env)
    (rc : List remoteconnection) (n : Int) :
    ((recv_loop want_dump s envs
        { rc := rc, n := n, status := conn_status.reading }).1.status =
        conn_status.loop_left ∧
      handle_connection want_dump s envs rc n =
        ({ rc := (close_all (recv_loop want_dump s envs
                    { rc := rc, n := n, status := conn_status.reading }).1.rc).rc,
           n := (recv_loop want_dump s envs
                    { rc := rc, n := n, status := conn_status.reading }).1.n,
           status := conn_status.closed },
         (recv_loop want_dump s envs
            { rc := rc, n := n, status := conn_status.reading }).2 ++
          (close_all (recv_loop want_dump s envs
                    { rc := rc, n := n, status := conn_status.reading }).1.rc).trace ++
          [sys_call.close s])) ∨
    handle_connection want_dump s envs rc n =
      recv_loop want_dump s envs { rc := rc, n := n, status := conn_status.reading } := by
  unfold handle_connection
  simp only []
  split
  · rename_i hst
    exact Or.inl ⟨hst, rfl⟩
  · exact Or.inr rfl

/-- Handling a connection from owned records sends only on owned descriptors. -/
lemma handle_connection_owned (want_dump s : Int) (envs : List iter_env)
    (rc : List remoteconnection) (n : Int) (o : List Int) (h : ∀ r ∈ rc, owned o r) :
    sends_on_sockets_from o (handle_connection want_dump s envs rc n).2 = true := by
  obtain ⟨a1, -, -⟩ := recv_loop_owned want_dump s envs
    { rc := rc, n := n, status := conn_status.reading } o h (by simp)
  rcases handle_connection_cases want_dump s envs rc n with ⟨-, hc⟩ | hc
  · rw [hc]
    simp only [List.append_assoc]
    refine sends_on_sockets_from_append _ _ o a1 ?_
    refine sends_on_sockets_from_append _ _ _ (close_all_closed _ _).2.2 ?_
    simp [sends_on_sockets_from]
  · rw [hc]
    exact a1

/-- The closing loop sets `sock = -1` in every record and calls `close` on
each record's descriptor, in order. -/
lemma close_all_eq (rcs : List remoteconnection) :
    (close_all rcs).rc = rcs.map (fun r => { r with sock := -1 }) ∧
    (close_all rcs).trace = rcs.map (fun r => sys_call.close r.sock) := by
  induction rcs with
  | nil => simp [close_all]
  | cons r rest ih => simp [close_all, close_rc, ih.1, ih.2]

/-- When the read loop is left, the handling goes on with the closing loop and
`close(s)`. -/
lemma handle_connection_of_loop_left (want_dump s : Int) (envs : List iter_env)
    (rc : List remoteconnection) (n : Int)
    (hleft : (recv_loop want_dump s envs
        { rc := rc, n := n, status := conn_status.reading }).1.status =
      conn_status.loop_left) :
    handle_connection want_dump s envs rc n =
      ({ rc := (close_all (recv_loop want_dump s envs
                  { rc := rc, n := n, status := conn_status.reading }).1.rc).rc,
         n := (recv_loop want_dump s envs
                  { rc := rc, n := n, status := conn_status.reading }).1.n,
         status := conn_status.closed },
       (recv_loop want_dump s envs
          { rc := rc, n := n, status := conn_status.reading }).2 ++
        (close_all (recv_loop want_dump s envs
                  { rc := rc, n := n, status := conn_status.reading }).1.rc).trace ++
        [sys_call.close s]) := by
  rcases handle_connection_cases want_dump s envs rc n with ⟨-, hc⟩ | hc
  · exact hc
  · unfold handle_connection at hc ⊢
    simp only [hleft]

/-- C6: when the inner read loop of the handling of an accepted client
connection is left, the handling ends like this: `close_rc` runs on every
destination record (one `close` call per record, on its descriptor, after the
calls of the loop and before `close(s)`), there are as many records as before
(`argc-2`), and every one has `sock = -1`.  For every record with `sock < 0`,
`send_rc` first runs `open_rc` (whose first call is `socket` and which sends
nothing) and only then may send.  So in the handling of the next connection,
which starts from the records left here, every `sendto` is made on a
descriptor returned by a `socket` call of that same handling. -/
theorem handle_connection_closes_every_destination
    (want_dump s : Int) (envs : List iter_env) (rc : List remoteconnection) (n : Int)
    (hleft : (recv_loop want_dump s envs
        { rc := rc, n := n, status := conn_status.reading }).1.status =
      conn_status.loop_left) :
    (handle_connection want_dump s envs rc n).1.status = conn_status.closed ∧
    (handle_connection want_dump s envs rc n).1.rc =
      (recv_loop want_dump s envs
        { rc := rc, n := n, status := conn_status.reading }).1.rc.map
        (fun r => { r with sock := -1 }) ∧
    (handle_connection want_dump s envs rc n).2 =
      (recv_loop want_dump s envs { rc := rc, n := n, status := conn_status.reading }).2 ++
        (recv_loop want_dump s envs
          { rc := rc, n := n, status := conn_status.reading }).1.rc.map
          (fun r => sys_call.close r.sock) ++
        [sys_call.close s] ∧
    (handle_connection want_dump s envs rc n).1.rc.length = rc.length ∧
    (∀ r ∈ (handle_connection want_dump s envs rc n).1.rc, r.sock = -1) ∧
    (∀ (e : send_env) (r : remoteconnection) (buffer : List Nat) (len : Nat),
      r.sock < 0 →
      ∃ rest, (send_rc e r buffer len).trace =
          (open_rc e.opening r r.hostname r.port).trace ++ rest ∧
        (open_rc e.opening r r.hostname r.port).trace.head? =
          some (sys_call.socket e.opening.socket_ret) ∧
        (∀ c ∈ (open_rc e.opening r r.hostname r.port).trace, is_sendto c = false)) ∧
    (∀ (want_dump2 s2 : Int) (envs2 : List iter_env) (n2 : Int),
      sends_on_own_sockets
        (handle_connection want_dump2 s2 envs2
          (handle_connection want_dump s envs rc n).1.rc n2).2 = true) := by
  obtain ⟨-, hlen, -⟩ := recv_loop_owned want_dump s envs
    { rc := rc, n := n, status := conn_status.reading } (rc.map (·.sock))
    (fun r hr => Or.inr (List.mem_map_of_mem _ hr)) (by simp)
  have hform := handle_connection_of_loop_left want_dump s envs rc n hleft
  have hsock : ∀ r ∈ (handle_connection want_dump s envs rc n).1.rc, r.sock = -1 := by
    rw [hform]
    exact (close_all_closed _ []).1
  refine ⟨?_, ?_, ?_, ?_, hsock, ?_, ?_⟩
  · rw [hform]
  · rw [hform]
    exact (close_all_eq _).1
  · rw [hform]
    simp only []
    rw [(close_all_eq _).2]
  · rw [hform]
    simp only []
    rw [(close_all_closed _ []).2.1, hlen]
  · intro e r buffer len hr
    refine ⟨?_, ?_, ?_⟩
    · exact (send_rc e r buffer len).trace.drop
        (open_rc e.opening r r.hostname r.port).trace.length
    · unfold send_rc
      simp only [hr, if_true]
      split_ifs <;> simp
    · constructor
      · unfold open_rc close_rc
        cases e.opening.hp <;> simp only [] <;> split_ifs <;> simp
      · unfold open_rc close_rc
        cases e.opening.hp <;> simp only [] <;> split_ifs <;> simp [is_sendto]
  · intro want_dump2 s2 envs2 n2
    apply handle_connection_owned
    intro r hr
    left
    rw [hsock r hr]
    decide

/-- C6, on a connection that delivers three bytes and then ends, with the one
destination ":3334": the read loop is left with the record connected on
descriptor 5; the handling then calls `close(5)` and `close(4)` and leaves the
record with `sock = -1`; a `send_rc` on that record starts with `open_rc`. -/
theorem handle_connection_closes_every_destination_witness :
    (recv_loop 0 4 [sample_iter_data, sample_iter_eof]
        { rc := [sample_rc], n := 0, status := conn_status.reading }).1.status =
      conn_status.loop_left ∧
    (recv_loop 0 4 [sample_iter_data, sample_iter_eof]
        { rc := [sample_rc], n := 0, status := conn_status.reading }).1.rc.map (·.sock) =
      [5] ∧
    (handle_connection 0 4 [sample_iter_data, sample_iter_eof] [sample_rc] 0).1.status =
      conn_status.closed ∧
    (handle_connection 0 4 [sample_iter_data, sample_iter_eof] [sample_rc] 0).2 =
      (recv_loop 0 4 [sample_iter_data, sample_iter_eof]
        { rc := [sample_rc], n := 0, status := conn_status.reading }).2 ++
        [sys_call.close 5] ++ [sys_call.close 4] ∧
    (handle_connection 0 4 [sample_iter_data, sample_iter_eof] [sample_rc] 0).1.rc.length = 1 ∧
    (∀ r ∈ (handle_connection 0 4 [sample_iter_data, sample_iter_eof] [sample_rc] 0).1.rc,
      r.sock = -1) ∧
    sample_rc.sock < 0 ∧
    (∃ rest, (send_rc sample_send_env sample_rc [47, 97, 0] 3).trace =
        (open_rc sample_send_env.opening sample_rc sample_rc.hostname sample_rc.port).trace ++
          rest ∧
      (open_rc sample_send_env.opening sample_rc sample_rc.hostname
          sample_rc.port).trace.head? = some (sys_call.socket 5) ∧
      (∀ c ∈ (open_rc sample_send_env.opening sample_rc sample_rc.hostname
          sample_rc.port).trace, is_sendto c = false)) :=
  ⟨by decide, by decide,
   (handle_connection_closes_every_destination 0 4 [sample_iter_data, sample_iter_eof]
      [sample_rc] 0 (by decide)).1,
   (handle_connection_closes_every_destination 0 4 [sample_iter_data, sample_iter_eof]
      [sample_rc] 0 (by decide)).2.2.1,
   (handle_connection_closes_every_destination 0 4 [sample_iter_data, sample_iter_eof]
      [sample_rc] 0 (by decide)).2.2.2.1,
   (handle_connection_closes_every_destination 0 4 [sample_iter_data, sample_iter_eof]
      [sample_rc] 0 (by decide)).2.2.2.2.1,
   by decide,
   (handle_connection_closes_every_destination 0 4 [sample_iter_data, sample_iter_eof]
      [sample_rc] 0 (by decide)).2.2.2.2.2.1 sample_send_env sample_rc [47, 97, 0] 3
      (by decide)⟩

end dvswitch
